import Mathlib

/-!
Verification of the ePoxy network boot orchestrator (m-lab/epoxy).

This file is a shallow embedding of the parts of the system the claims
mention: the host record and session model (package storage), the extension
envelope (package extension), the boot client action model with chain
loading and the files pass (package nextboot), the template composer
(package template), the HTTP request handlers (package handler), and the
boot client retry loop (cmd/epoxy_client). Go maps are association lists,
time instants are Nat, and the stores, the transport and the random source
are explicit inputs of each handler. The theorems at the end settle the
specification claims.
-/

/-- Association list with string keys and values, modelling a Go
map[string]string (including datastorex.Map). Go map iteration order is
irrelevant to every claim below; lookup scans the list. -/
abbrev SMap := List (String × String)

/-- Lookup of a key: some value when the key is bound (Go v, ok := m[k]). -/
def smapGet? : SMap → String → Option String
  | [], _ => none
  | (k, v) :: rest, key => if k = key then some v else smapGet? rest key

/-- Go map indexing m[k]: the zero value "" when the key is absent. -/
def smapGet (m : SMap) (key : String) : String := (smapGet? m key).getD ""

/-- Whether a key is bound. -/
def smapContains : SMap → String → Bool
  | [], _ => false
  | (k, _) :: rest, key => k = key || smapContains rest key

/-- Go map update m[k] = v: replaces the binding when present, appends a new
binding otherwise. -/
def smapSet (m : SMap) (key v : String) : SMap :=
  if smapContains m key then
    m.map (fun p => if p.1 = key then (key, v) else p)
  else m ++ [(key, v)]

/-- Helper for Go strings.Split with a nonempty separator, over character
lists. The first component of the result is the field under construction;
a field ends at each leftmost non-overlapping instance of the separator.
The fuel argument is at least the length of the list, so the fallback for
exhausted fuel is never reached. -/
def splitListAux (sep : List Char) : Nat → List Char → List (List Char)
  | _, [] => [[]]
  | 0, l => [l]
  | n + 1, c :: cs =>
    if sep.isPrefixOf (c :: cs) then
      [] :: splitListAux sep n (List.drop (sep.length - 1) cs)
    else
      match splitListAux sep n cs with
      | [] => [[c]]
      | h :: t => (c :: h) :: t

/-- Go strings.Split for a nonempty separator: the substrings between the
leftmost non-overlapping instances of sep; Split("", sep) = [""]. The Go
behaviour for an empty separator (splitting after every rune) is not used by
the embedded code, so an empty separator returns the string whole. -/
def goSplit (s sep : String) : List String :=
  if sep.data.isEmpty then [s]
  else (splitListAux sep.data s.data.length s.data).map String.mk

namespace storage

/-- storage.SessionIDs: the four session IDs generated when a stage1 target
is requested. -/
structure SessionIDs where
  stage2ID : String
  stage3ID : String
  reportID : String
  extensionID : String
deriving DecidableEq

/-- storage.Host: the configuration of a server managed by ePoxy, in the
revision the handlers use (Boot and Update are datastorex.Map values, and
ImagesVersion is present). time.Time instants are modelled as Nat. -/
structure Host where
  name : String
  iPv4Addr : String
  boot : SMap
  update : SMap
  imagesVersion : String
  updateEnabled : Bool
  extensions : List String
  currentSessionIDs : SessionIDs
  lastSessionCreation : Nat
  lastReport : Nat
  lastSuccess : Nat
  collectedInformation : SMap
deriving DecidableEq

/-- storage.Host.CurrentSequence: the Update sequence when UpdateEnabled is
true, the Boot sequence otherwise. -/
def Host.currentSequence (h : Host) : SMap :=
  if h.updateEnabled then h.update else h.boot

/-- storage.Host.GenerateSessionIDs: overwrite CurrentSessionIDs with four
fresh random session IDs and stamp LastSessionCreation with the current
time; the random IDs and the clock reading are inputs of the model. -/
def Host.generateSessionIDs (h : Host) (fresh : SessionIDs) (now : Nat) : Host :=
  { h with currentSessionIDs := fresh, lastSessionCreation := now }

end storage

namespace extension

/-- extension.V1: the envelope the ePoxy server sends to an extension
service (the JSON fields hostname, ipv4_address, ipv6_address, last_boot
and raw_query). -/
structure V1 where
  hostname : String
  iPv4Address : String
  iPv6Address : String
  lastBoot : Nat
  rawQuery : String
deriving DecidableEq

end extension

namespace nextboot

/-- A JSON-decoded Go interface value, as V1.Vars values and V1.Commands
elements are typed. The claims below never inspect these values; a string
and an array of strings are the forms the client evaluates, and every other
JSON shape is collapsed into other. -/
inductive GoVal where
  | str (s : String)
  | arr (elems : List String)
  | other
deriving DecidableEq

/-- One source spec of V1.Files: a Go map[string]string restricted to the
keys the client reads, url, sha256 and name. Local temporary file names are
opaque fresh strings minted by ioutil.TempFile; the model identifies a
temporary file by a Nat. -/
structure FileSpec where
  url : Option String
  sha256 : Option String
  name : Option Nat
deriving DecidableEq

/-- nextboot.V1: one action for an ePoxy client, either a Chain URL or an
executable batch of vars, files, env and commands. -/
structure V1 where
  chain : String
  vars : List (String × GoVal)
  files : List (String × FileSpec)
  env : SMap
  commands : List GoVal
deriving DecidableEq

/-- nextboot.Config: kernel args plus the V1 action; the V1 field is a Go
pointer, nil when the decoded document has no v1 key. -/
structure Config where
  kargs : SMap
  v1 : Option V1
deriving DecidableEq

/-- nextboot.loadAction: fetch an action document from a source and decode
it, then overwrite only the V1 portion of the config with the decoded
document (the source notes that Kargs are never overwritten from an
external source). The fetched argument stands for the transport (file open
for file URLs, POST for the action URL, GET for chain URLs) composed with
the JSON decode, whose outcome the function matches on. -/
def loadAction (c : Config) (fetched : Except String Config) : Except String Config :=
  match fetched with
  | .error e => .error e
  | .ok n => .ok { c with v1 := n.v1 }

/-- nextboot.maybeLoadChain: while the V1 action has a nonempty Chain URL,
load the action document at that URL by GET. fetch gives the fetched and
decoded document for each URL; fuel bounds the loop, which the Go source
does not bound (a cyclic chain loops forever there). A nil V1 pointer makes
the Go code dereference nil on c.V1.Chain; the model returns an error for
that case. -/
def maybeLoadChain (fetch : String → Except String Config) :
    Nat → Config → Except String Config
  | 0, _ => .error "chain loop: out of fuel"
  | fuel + 1, c =>
    match c.v1 with
    | none => .error "nil V1 action"
    | some v =>
      if v.chain = "" then .ok c
      else
        match loadAction c (fetch v.chain) with
        | .error e => .error e
        | .ok c2 => maybeLoadChain fetch fuel c2

/-- The temporary-file state of the files pass, instrumented: a counter
minting fresh file identifiers, and append-only logs of every temporary
file created by ioutil.TempFile and of every file handed to os.Remove. -/
structure FS where
  cnt : Nat
  allocated : List Nat
  deleted : List Nat
deriving DecidableEq

/-- ioutil.TempFile followed by Close: create a fresh temporary file. -/
def tempFile (s : FS) : Nat × FS :=
  (s.cnt, { cnt := s.cnt + 1, allocated := s.cnt :: s.allocated, deleted := s.deleted })

/-- os.Remove on a temporary file. -/
def osRemove (f : Nat) (s : FS) : FS := { s with deleted := f :: s.deleted }

/-- nextboot.evaluateAndDownloadFiles: for each file spec in order, require
a url key (missing gives ErrFileURLNotFound), evaluate the url as a
template (evalT stands for evaluateAsTemplate with the vars namespace) and
store it back into the spec, create a temporary file, download into it
unless dryrun (download stands for fileDownload, whose error cases include
a sha256 checksum mismatch), and record the local name in the spec under
name. On a download error the temporary file is removed and the pass stops
with that error. Returns the updated file list (the Go code mutates the
specs of c.V1.Files in place), the file state, and the error if any.
A TempFile failure in Go allocates nothing and stops the pass; the model
lets TempFile succeed, which only adds runs to quantify over. -/
def evaluateAndDownloadFiles (evalT : String → Except String String)
    (download : String → FileSpec → Except String Unit) (dryrun : Bool) :
    List (String × FileSpec) → FS → List (String × FileSpec) × FS × Option String
  | [], s => ([], s, none)
  | (nm, spec) :: rest, s =>
    match spec.url with
    | none => ((nm, spec) :: rest, s, some "URL key not found in file spec")
    | some u =>
      match evalT u with
      | .error e => ((nm, spec) :: rest, s, some e)
      | .ok u2 =>
        let spec2 : FileSpec := { spec with url := some u2 }
        let alloc := tempFile s
        if dryrun then
          let spec3 : FileSpec := { spec2 with name := some alloc.1 }
          let out := evaluateAndDownloadFiles evalT download dryrun rest alloc.2
          ((nm, spec3) :: out.1, out.2.1, out.2.2)
        else
          match download u2 spec2 with
          | .error e => ((nm, spec2) :: rest, osRemove alloc.1 alloc.2, some e)
          | .ok _ =>
            let spec3 : FileSpec := { spec2 with name := some alloc.1 }
            let out := evaluateAndDownloadFiles evalT download dryrun rest alloc.2
            ((nm, spec3) :: out.1, out.2.1, out.2.2)

/-- nextboot.cleanupFiles: for each file spec in turn, remove the local
file recorded under its name key, when one is recorded. -/
def cleanupFiles : List (String × FileSpec) → FS → FS
  | [], s => s
  | (_, spec) :: rest, s =>
    match spec.name with
    | some f => cleanupFiles rest (osRemove f s)
    | none => cleanupFiles rest s

/-- The temporary-file effect of nextboot.runCommands: the files pass runs
after the vars pass (which does not touch the filesystem), cleanupFiles is
deferred, and the env pass and the command passes (which do not touch the
temporary files) run before the deferred call fires; so by the time
runCommands returns, cleanupFiles has run on the updated file list whether
the files pass succeeded or failed at any entry. -/
def runCommandsFiles (evalT : String → Except String String)
    (download : String → FileSpec → Except String Unit) (dryrun : Bool)
    (files : List (String × FileSpec)) (s : FS) : FS :=
  let out := evaluateAndDownloadFiles evalT download dryrun files s
  cleanupFiles out.1 out.2.1

end nextboot

namespace template

/-- template.FormatStage1IPXEScript as staged (the code C7 cites): the
stage1 iPXE template emits one set directive per value prepared by the
function: stage1chain_url from Sequence.NextURL("stage1"), the stage1 chain
URL of the selected sequence (keyed stage1.ipxe in the map-based host
record the handlers use), the stage2, stage3 and report URLs carrying their
session IDs, and one <op>_url per extension operation of the host. The
staged body emits no images_version directive. Each pair is one set
directive (variable, value); Go text/template ranges over the extension
URL map in sorted key order, the model keeps the host's extension list
order, on which no claim depends. -/
def stage1ScriptVars (h : storage.Host) (serverAddr : String) : List (String × String) :=
  [("stage1chain_url", smapGet h.currentSequence "stage1.ipxe"),
   ("stage2_url", "https://" ++ serverAddr ++ "/v1/boot/" ++ h.name ++ "/"
      ++ h.currentSessionIDs.stage2ID ++ "/stage2"),
   ("stage3_url", "https://" ++ serverAddr ++ "/v1/boot/" ++ h.name ++ "/"
      ++ h.currentSessionIDs.stage3ID ++ "/stage3"),
   ("report_url", "https://" ++ serverAddr ++ "/v1/boot/" ++ h.name ++ "/"
      ++ h.currentSessionIDs.reportID ++ "/report")]
  ++ h.extensions.map (fun op =>
      (op ++ "_url", "https://" ++ serverAddr ++ "/v1/boot/" ++ h.name ++ "/"
        ++ h.currentSessionIDs.extensionID ++ "/extension/" ++ op))

/-- The lines of the stage1 iPXE script, as the staged stage1IpxeTemplate
lays them out: the #!ipxe header, a blank line, one set line per directive
of stage1ScriptVars, a blank line, and the final chain directive. -/
def stage1ScriptLines (h : storage.Host) (serverAddr : String) : List String :=
  ["#!ipxe", ""]
  ++ (stage1ScriptVars h serverAddr).map (fun p => "set " ++ p.1 ++ " " ++ p.2)
  ++ ["", "chain $\x7bstage1chain_url\x7d"]

/-- template.FormatStage1IPXEScript renders the script lines with
newlines. -/
def FormatStage1IPXEScript (h : storage.Host) (serverAddr : String) : String :=
  String.intercalate "\n" (stage1ScriptLines h serverAddr) ++ "\n"

/-- template.CreateStage1Action as staged (the code C7 cites): the kernel
args are epoxy.stage2, epoxy.stage3 and epoxy.report with their session
URLs, plus one epoxy.<op> per extension operation written with Go map
update semantics after the base keys; the staged body sets no
epoxy.images_version karg. v1.chain is Sequence.NextURL("stage1"), the
stage1 chain URL of the selected sequence (keyed stage1.ipxe in the
map-based host record, see stage1ScriptVars). -/
def CreateStage1Action (h : storage.Host) (serverAddr : String) : nextboot.Config :=
  let base : SMap :=
    [("epoxy.stage2", "https://" ++ serverAddr ++ "/v1/boot/" ++ h.name ++ "/"
        ++ h.currentSessionIDs.stage2ID ++ "/stage2"),
     ("epoxy.stage3", "https://" ++ serverAddr ++ "/v1/boot/" ++ h.name ++ "/"
        ++ h.currentSessionIDs.stage3ID ++ "/stage3"),
     ("epoxy.report", "https://" ++ serverAddr ++ "/v1/boot/" ++ h.name ++ "/"
        ++ h.currentSessionIDs.reportID ++ "/report")]
  let kargs := h.extensions.foldl
    (fun m op => smapSet m ("epoxy." ++ op)
      ("https://" ++ serverAddr ++ "/v1/boot/" ++ h.name ++ "/"
        ++ h.currentSessionIDs.extensionID ++ "/extension/" ++ op)) base
  { kargs := kargs,
    v1 := some { chain := smapGet h.currentSequence "stage1.ipxe",
                 vars := [], files := [], env := [], commands := [] } }

/-- template.FormatJSONConfig: the minimal action document for a stage2 or
stage3 request, as staged: only v1.chain is set, to the selected sequence
at the given stage name (Sequence.NextURL(stage) of the staged body, which
for the stage2 and stage3 requests the handler serves is the sequence entry
at that stage name; the staged current test checks the document is exactly
v1.chain = boot[stage]). -/
def FormatJSONConfig (h : storage.Host) (stage : String) : nextboot.Config :=
  { kargs := [],
    v1 := some { chain := smapGet h.currentSequence stage,
                 vars := [], files := [], env := [], commands := [] } }

end template

namespace handler

/-- handler.Env: the handler configuration (Config, the store, is passed
through the per-request Oracles below). -/
structure Env where
  serverAddr : String
  allowForwardedRequests : Bool
deriving DecidableEq

/-- One HTTP request as the handlers read it: the gorilla mux path
variables sessionID and operation, the X-Forwarded-For header value, the IP
extracted from the transport peer address by extractIP (none when url.Parse
fails on RemoteAddr), the URL path, the raw query string of the request
URL, and the message field of the parsed POST form. -/
structure Request where
  sessionID : String
  operation : String
  xForwardedFor : String
  remoteIP : Option String
  urlPath : String
  rawQuery : String
  formMessage : String
deriving DecidableEq

/-- The per-request collaborators of a handler, made explicit: the store
(the Config.Load result for the hostname path variable, and the Config.Save
outcome), the fresh session IDs minted by GenerateSessionIDs together with
the clock reading, the storage.Extensions registry, the url.Parse outcome
on the registered extension URL, and the extension backend response that
the reverse proxy forwards. -/
structure Oracles where
  load : Except String storage.Host
  saveErr : Option String
  fresh : storage.SessionIDs
  now : Nat
  registry : SMap
  extURLOk : Bool
  backendStatus : Nat
  backendBody : String

/-- One HTTP response body, before serialization. -/
inductive Body where
  | text (s : String)
  | script (s : String)
  | config (c : nextboot.Config)
  | empty
deriving DecidableEq

/-- One HTTP response: the status code and the body. -/
structure Response where
  status : Nat
  body : Body
deriving DecidableEq

/-- What one handler call did: the response, the host record passed to
Config.Save when Save was called, and the envelope POSTed to an extension
backend when the reverse proxy ran. -/
structure HandlerResult where
  response : Response
  saved : Option storage.Host
  sentEnvelope : Option extension.V1
deriving DecidableEq

/-- http.Error: a plain text response carrying the message and a trailing
newline. -/
def httpError (msg : String) (code : Nat) : Response :=
  { status := code, body := .text (msg ++ "\n") }

/-- A 200-style response with the given status and body. -/
def respond (status : Nat) (b : Body) : Response :=
  { status := status, body := b }

/-- handler.requestIsFromHost: whether the request appears to originate
from the given host (true stands for the Go function returning a nil
error). The X-Forwarded-For header is split on ", "; when
AllowForwardedRequests is set, the request passes only if the header has at
most two elements and its first element equals the host IPv4; otherwise the
IP extracted from the transport peer address must equal the host IPv4. -/
def requestIsFromHost (env : Env) (req : Request) (host : storage.Host) : Bool :=
  if env.allowForwardedRequests = true
      ∧ (goSplit req.xForwardedFor ", ").length ≤ 2
      ∧ (goSplit req.xForwardedFor ", ").headD "" = host.iPv4Addr then
    true
  else if ¬env.allowForwardedRequests = true
      ∧ req.remoteIP = some host.iPv4Addr then
    -- An extractIP parse failure is req.remoteIP = none, which fails this
    -- equality: the Go code returns ErrCannotAccessHost in both cases.
    true
  else false

/-- path.Base from the Go standard library, as GenerateJSONConfig applies
it to the request URL path: the last element of the path once trailing
slashes are removed; "." for the empty path and "/" for a path of only
slashes. -/
def pathBase (p : String) : String :=
  if p = "" then "."
  else
    let q := (p.data.reverse.dropWhile (fun c => c = '/')).reverse
    if q.isEmpty then "/"
    else ((goSplit (String.mk q) "/").getLastD (String.mk q))

/-- handler.GenerateStage1IPXE: load the host record (404 on failure),
check the source IP (403 on mismatch), generate new session IDs, save the
record to commit them (500 on failure), and answer 200 with the stage1 iPXE
script. -/
def GenerateStage1IPXE (env : Env) (req : Request) (orc : Oracles) : HandlerResult :=
  match orc.load with
  | .error e => { response := httpError e 404, saved := none, sentEnvelope := none }
  | .ok host =>
    if requestIsFromHost env req host = true then
      let host2 := host.generateSessionIDs orc.fresh orc.now
      match orc.saveErr with
      | some e =>
        { response := httpError e 500, saved := some host2, sentEnvelope := none }
      | none =>
        { response := respond 200 (.script (template.FormatStage1IPXEScript host2 env.serverAddr)),
          saved := some host2, sentEnvelope := none }
    else
      { response := httpError "Caller cannot access host" 403,
        saved := none, sentEnvelope := none }

/-- handler.GenerateStage1JSON: like GenerateStage1IPXE but answering the
stage1 epoxy-client JSON action; the requestIsFromHost call is commented
out in the source (so no source IP check runs), pending PLC updates. -/
def GenerateStage1JSON (env : Env) (_req : Request) (orc : Oracles) : HandlerResult :=
  match orc.load with
  | .error e => { response := httpError e 404, saved := none, sentEnvelope := none }
  | .ok host =>
    let host2 := host.generateSessionIDs orc.fresh orc.now
    match orc.saveErr with
    | some e =>
      { response := httpError e 500, saved := some host2, sentEnvelope := none }
    | none =>
      { response := respond 200 (.config (template.CreateStage1Action host2 env.serverAddr)),
        saved := some host2, sentEnvelope := none }

/-- handler.GenerateJSONConfig: load the host record (404 on failure),
check the source IP (403 on mismatch), take the stage name as the base of
the URL path, and answer 200 with the minimal action document for that
stage. The sessionID path variable is not read (the check against
CurrentSessionIDs is a TODO in the source), and no save is issued. -/
def GenerateJSONConfig (env : Env) (req : Request) (orc : Oracles) : HandlerResult :=
  match orc.load with
  | .error e => { response := httpError e 404, saved := none, sentEnvelope := none }
  | .ok host =>
    if requestIsFromHost env req host = true then
      { response := respond 200 (.config (template.FormatJSONConfig host (pathBase req.urlPath))),
        saved := none, sentEnvelope := none }
    else
      { response := httpError "Caller cannot access host" 403,
        saved := none, sentEnvelope := none }

/-- handler.ReceiveReport: load the host record (404 on failure), check the
source IP (403 on mismatch), verify the sessionID path variable against
CurrentSessionIDs.ReportID (403 on mismatch), then stamp LastReport with
the current time and, when the message form field is "success", stamp
LastSuccess with the same time and clear UpdateEnabled; save the record
(500 on failure) and answer 204 No Content. -/
def ReceiveReport (env : Env) (req : Request) (orc : Oracles) : HandlerResult :=
  match orc.load with
  | .error e => { response := httpError e 404, saved := none, sentEnvelope := none }
  | .ok host =>
    if requestIsFromHost env req host = true then
      if req.sessionID ≠ host.currentSessionIDs.reportID then
        { response := httpError "Given session ID does not match host record" 403,
          saved := none, sentEnvelope := none }
      else
        let host1 := { host with lastReport := orc.now }
        let host2 :=
          if req.formMessage = "success" then
            { host1 with lastSuccess := host1.lastReport, updateEnabled := false }
          else host1
        match orc.saveErr with
        | some e =>
          { response := httpError e 500, saved := some host2, sentEnvelope := none }
        | none =>
          { response := respond 204 .empty,
            saved := some host2, sentEnvelope := none }
    else
      { response := httpError "Caller cannot access host" 403,
        saved := none, sentEnvelope := none }

/-- handler.HandleExtension: load the host record (404 on failure), check
the source IP (403 on mismatch), verify the sessionID path variable against
CurrentSessionIDs.ExtensionID (403 on mismatch), reject an empty operation
(400) and an unregistered operation (500), build the extension envelope
(the handler sets only Hostname, IPv4Address and LastBoot; IPv6Address and
RawQuery keep their Go zero value ""), parse the registered URL (500 on
failure), and reverse-proxy the envelope to the backend, forwarding the
backend status and body. No save is ever issued. -/
def HandleExtension (env : Env) (req : Request) (orc : Oracles) : HandlerResult :=
  match orc.load with
  | .error e => { response := httpError e 404, saved := none, sentEnvelope := none }
  | .ok host =>
    if requestIsFromHost env req host = true then
      if req.sessionID ≠ host.currentSessionIDs.extensionID then
        { response := httpError "Given session ID does not match host record" 403,
          saved := none, sentEnvelope := none }
      else if req.operation = "" then
        { response := httpError "Zero length operation is invalid" 400,
          saved := none, sentEnvelope := none }
      else
        match smapGet? orc.registry req.operation with
        | none =>
          { response := httpError ("Unknown Extension for operation: " ++ req.operation) 500,
            saved := none, sentEnvelope := none }
        | some _ =>
          let webreq : extension.V1 :=
            { hostname := host.name, iPv4Address := host.iPv4Addr,
              iPv6Address := "", lastBoot := host.lastSessionCreation,
              rawQuery := "" }
          if orc.extURLOk = true then
            { response := respond orc.backendStatus (.text orc.backendBody),
              saved := none, sentEnvelope := some webreq }
          else
            { response :=
                httpError ("Failed to parse extension URL for operation: " ++ req.operation) 500,
              saved := none, sentEnvelope := none }
    else
      { response := httpError "Caller cannot access host" 403,
        saved := none, sentEnvelope := none }

/-- The per-host boot endpoints, dispatched to their handler functions as
cmd/epoxy_boot_server/main.go routes them. -/
inductive Endpoint where
  | stage1IPXE
  | stage1JSON
  | stage2
  | stage3
  | report
  | ext
deriving DecidableEq

/-- The route table for the per-host boot endpoints. -/
def handleEndpoint : Endpoint → Env → Request → Oracles → HandlerResult
  | .stage1IPXE => GenerateStage1IPXE
  | .stage1JSON => GenerateStage1JSON
  | .stage2 => GenerateJSONConfig
  | .stage3 => GenerateJSONConfig
  | .report => ReceiveReport
  | .ext => HandleExtension

end handler

namespace epoxy_client

/-- The observable outcome of cmd/epoxy_client main: the loop-local runErr
of the final loop iteration, the function-level runErr variable the
post-loop check reads, and whether reboot() was invoked. -/
structure MainOutcome where
  finalRunErr : Option String
  outerRunErr : Option String
  rebooted : Bool
deriving DecidableEq

/-- The retry loop of cmd/epoxy_client main. runResult i is the error
returned by c.Run on iteration i (none means success; the no-op Report call
that follows does not affect control flow); afterDeadline i models
time.Now().After(deadline) read at the end of iteration i; fuel bounds the
recursion for the model (the real loop is bounded through afterDeadline by
the wall clock). Returns the loop-local runErr at the break, or none when
fuel runs out. Each iteration declares its own runErr with := (a short
variable declaration), which shadows the function-level runErr. -/
def retryLoop (runResult : Nat → Option String) (afterDeadline : Nat → Bool)
    (noRetry : Bool) : Nat → Nat → Option (Option String)
  | 0, _ => none
  | fuel + 1, i =>
    let runErr := runResult i
    if noRetry || runErr.isNone || afterDeadline i then some runErr
    else retryLoop runResult afterDeadline noRetry fuel (i + 1)

/-- cmd/epoxy_client main after flag parsing and ParseCmdline: declare the
function-level runErr (var runErr error, nil), run the retry loop (whose
iterations assign only their own shadowing runErr), and after the loop
invoke reboot() when the function-level runErr is non-nil. -/
def mainRun (runResult : Nat → Option String) (afterDeadline : Nat → Bool)
    (noRetry : Bool) (fuel : Nat) : Option MainOutcome :=
  let outerRunErr : Option String := none
  match retryLoop runResult afterDeadline noRetry fuel 0 with
  | none => none
  | some innerErr =>
    some { finalRunErr := innerErr, outerRunErr := outerRunErr,
           rebooted := outerRunErr.isSome }

end epoxy_client

/-! Concrete fixtures shared by witnesses and counterexamples. -/

/-- A concrete registered host record. -/
def hostA : storage.Host where
  name := "mlab1.example.org"
  iPv4Addr := "10.0.0.2"
  boot := [("stage1.ipxe", "https://s/stage1to2.ipxe"),
           ("stage1.json", "https://s/stage1.json"),
           ("stage2", "https://s/s2.json"),
           ("stage3", "https://s/s3.json")]
  update := []
  imagesVersion := "v1.2.3"
  updateEnabled := false
  extensions := ["allocate_k8s_token"]
  currentSessionIDs :=
    { stage2ID := "s2id", stage3ID := "s3id", reportID := "rid", extensionID := "eid" }
  lastSessionCreation := 100
  lastReport := 0
  lastSuccess := 0
  collectedInformation := []

/-- A concrete handler environment with trusted-proxy mode off. -/
def envA : handler.Env where
  serverAddr := "epoxy.example.net"
  allowForwardedRequests := false

/-- Concrete fresh session IDs for a stage1 request. -/
def sidsB : storage.SessionIDs where
  stage2ID := "n2"
  stage3ID := "n3"
  reportID := "nr"
  extensionID := "ne"

/-- Concrete per-request collaborators: the store loads hostA and saves
without error. -/
def orcA : handler.Oracles where
  load := .ok hostA
  saveErr := none
  fresh := sidsB
  now := 200
  registry := [("allocate_k8s_token", "http://backend/op")]
  extURLOk := true
  backendStatus := 200
  backendBody := "okay"

/-- A request from the wrong source IP (10.0.0.3 instead of 10.0.0.2). -/
def reqBad : handler.Request where
  sessionID := "s2id"
  operation := ""
  xForwardedFor := ""
  remoteIP := some "10.0.0.3"
  urlPath := "/v1/boot/mlab1.example.org/s2id/stage2"
  rawQuery := ""
  formMessage := ""

/-- A well-formed report request from the host, reporting success. -/
def reqReport : handler.Request where
  sessionID := "rid"
  operation := ""
  xForwardedFor := ""
  remoteIP := some "10.0.0.2"
  urlPath := "/v1/boot/mlab1.example.org/rid/report"
  rawQuery := ""
  formMessage := "success"

/-- A well-formed extension request from the host, with a nonempty query
string on the request URL. -/
def reqExtQ : handler.Request where
  sessionID := "eid"
  operation := "allocate_k8s_token"
  xForwardedFor := ""
  remoteIP := some "10.0.0.2"
  urlPath := "/v1/boot/mlab1.example.org/eid/extension/allocate_k8s_token"
  rawQuery := "p=somevalue"
  formMessage := ""

/-- A request from the host whose sessionID matches no current session ID. -/
def reqStale : handler.Request where
  sessionID := "stale-session-id"
  operation := "allocate_k8s_token"
  xForwardedFor := ""
  remoteIP := some "10.0.0.2"
  urlPath := "/v1/boot/mlab1.example.org/stale-session-id/report"
  rawQuery := ""
  formMessage := "success"

/-- The action document with only v1.chain set (used to state what the
stage2 and stage3 answers contain). -/
def chainOnlyConfig (chain : String) : nextboot.Config :=
  { kargs := [],
    v1 := some { chain := chain,
                 vars := [], files := [], env := [], commands := [] } }

/-! The claims. -/

/-- C10: requestIsFromHost authorizes a request exactly when, in
trusted-proxy mode, the X-Forwarded-For header split on ", " has at most
two elements and its first element equals the host IPv4 (the transport peer
address is then not consulted, so a request whose peer IP equals the host
IPv4 but whose header fails the rule is rejected); and, with trusted-proxy
mode off, exactly when the transport peer IP equals the host IPv4 (the
header is then ignored). -/
theorem claim_C10_theorem (env : handler.Env) (req : handler.Request)
    (host : storage.Host) :
    handler.requestIsFromHost env req host = true ↔
      ((env.allowForwardedRequests = true
          ∧ (goSplit req.xForwardedFor ", ").length ≤ 2
          ∧ (goSplit req.xForwardedFor ", ").headD "" = host.iPv4Addr)
       ∨ (env.allowForwardedRequests = false
          ∧ req.remoteIP = some host.iPv4Addr)) := by
  unfold handler.requestIsFromHost
  by_cases hfwd : env.allowForwardedRequests = true
      ∧ (goSplit req.xForwardedFor ", ").length ≤ 2
      ∧ (goSplit req.xForwardedFor ", ").headD "" = host.iPv4Addr
  · rw [if_pos hfwd]
    exact iff_of_true rfl (Or.inl hfwd)
  · rw [if_neg hfwd]
    by_cases hq : ¬env.allowForwardedRequests = true
        ∧ req.remoteIP = some host.iPv4Addr
    · rw [if_pos hq]
      exact iff_of_true rfl (Or.inr ⟨Bool.eq_false_iff.mpr hq.1, hq.2⟩)
    · rw [if_neg hq]
      refine iff_of_false (by simp) ?_
      rintro (h | ⟨hA, hR⟩)
      · exact hfwd h
      · exact hq ⟨by simp [hA], hR⟩

/-- C1 (amended): for every per-host boot endpoint other than stage1.json
(where the source-IP check is deliberately disabled in the source, pending
PLC updates, with the matching test case also commented out), once the host
record loads, a request that fails the source-IP / trusted-proxy check is
answered 403 with body "Caller cannot access host"; and any response with
status below 500 other than those 403 rejections implies the check passed. -/
theorem claim_C1_theorem (ep : handler.Endpoint) (env : handler.Env)
    (req : handler.Request) (orc : handler.Oracles) (host : storage.Host)
    (hep : ep ≠ handler.Endpoint.stage1JSON) (hload : orc.load = .ok host) :
    (handler.requestIsFromHost env req host = false →
       (handler.handleEndpoint ep env req orc).response
         = handler.httpError "Caller cannot access host" 403)
    ∧ ((handler.handleEndpoint ep env req orc).response.status < 500 →
       (handler.handleEndpoint ep env req orc).response.status ≠ 403 →
       handler.requestIsFromHost env req host = true) := by
  have main : handler.requestIsFromHost env req host = false →
      (handler.handleEndpoint ep env req orc).response
        = handler.httpError "Caller cannot access host" 403 := by
    intro hf
    cases ep
    case stage1JSON => exact absurd rfl hep
    all_goals
      simp [handler.handleEndpoint, handler.GenerateStage1IPXE,
        handler.GenerateJSONConfig, handler.ReceiveReport,
        handler.HandleExtension, hload, hf]
  refine ⟨main, ?_⟩
  intro _ h2
  cases hf : handler.requestIsFromHost env req host with
  | false =>
    rw [main hf] at h2
    exact absurd rfl h2
  | true => rfl

/-- C1 counterexample: a stage1.json request whose origin IP (10.0.0.3)
does not equal the host IPv4 (10.0.0.2) and does not pass the trusted-proxy
rule is answered 200, not 403: GenerateStage1JSON runs no source-IP check. -/
theorem claim_C1_counterexample :
    handler.requestIsFromHost envA reqBad hostA = false
    ∧ (handler.handleEndpoint .stage1JSON envA reqBad orcA).response.status = 200 := by
  constructor
  · decide
  · rfl

/-- C2: a report request that passes the load, source-IP and session checks
saves a record whose last_report is the current time; when the message form
field is "success" the saved record additionally has update_enabled false
and last_success equal to the same time, and otherwise update_enabled and
last_success are preserved; the response is 204 No Content, or 500 when the
save fails. -/
theorem claim_C2_theorem (env : handler.Env) (req : handler.Request)
    (orc : handler.Oracles) (host : storage.Host)
    (hload : orc.load = .ok host)
    (hip : handler.requestIsFromHost env req host = true)
    (hsid : req.sessionID = host.currentSessionIDs.reportID) :
    ∃ h2, (handler.ReceiveReport env req orc).saved = some h2
      ∧ h2.lastReport = orc.now
      ∧ (req.formMessage = "success" →
           h2.updateEnabled = false ∧ h2.lastSuccess = orc.now)
      ∧ (req.formMessage ≠ "success" →
           h2.updateEnabled = host.updateEnabled ∧ h2.lastSuccess = host.lastSuccess)
      ∧ (handler.ReceiveReport env req orc).response.status
          = (if orc.saveErr = none then 204 else 500) := by
  by_cases hm : req.formMessage = "success" <;>
    cases hsv : orc.saveErr <;>
      simp [handler.ReceiveReport, hload, hip, hsid, hm, hsv, handler.httpError,
        handler.respond]

/-- C2 witness: a concrete successful report request. -/
theorem claim_C2_witness :
    ∃ h2, (handler.ReceiveReport envA reqReport orcA).saved = some h2
      ∧ h2.lastReport = orcA.now
      ∧ (reqReport.formMessage = "success" →
           h2.updateEnabled = false ∧ h2.lastSuccess = orcA.now)
      ∧ (reqReport.formMessage ≠ "success" →
           h2.updateEnabled = hostA.updateEnabled ∧ h2.lastSuccess = hostA.lastSuccess)
      ∧ (handler.ReceiveReport envA reqReport orcA).response.status
          = (if orcA.saveErr = none then 204 else 500) :=
  claim_C2_theorem envA reqReport orcA hostA rfl (by decide) rfl

/-- C5: a report or extension request whose sessionID path variable differs
from the matching current session ID of the loaded host record is answered
403 and no save is issued, so the stored record is not mutated. -/
theorem claim_C5_theorem (env : handler.Env) (req : handler.Request)
    (orc : handler.Oracles) (host : storage.Host)
    (hload : orc.load = .ok host) :
    (req.sessionID ≠ host.currentSessionIDs.reportID →
       (handler.ReceiveReport env req orc).response.status = 403
       ∧ (handler.ReceiveReport env req orc).saved = none)
    ∧ (req.sessionID ≠ host.currentSessionIDs.extensionID →
       (handler.HandleExtension env req orc).response.status = 403
       ∧ (handler.HandleExtension env req orc).saved = none) := by
  constructor
  · intro hne
    cases hip : handler.requestIsFromHost env req host <;>
      simp [handler.ReceiveReport, hload, hip, hne, handler.httpError]
  · intro hne
    cases hip : handler.requestIsFromHost env req host <;>
      simp [handler.HandleExtension, hload, hip, hne, handler.httpError]

/-- C5 witness: a concrete report request with a stale session ID. -/
theorem claim_C5_witness :
    ((reqStale.sessionID ≠ hostA.currentSessionIDs.reportID →
       (handler.ReceiveReport envA reqStale orcA).response.status = 403
       ∧ (handler.ReceiveReport envA reqStale orcA).saved = none)
    ∧ (reqStale.sessionID ≠ hostA.currentSessionIDs.extensionID →
       (handler.HandleExtension envA reqStale orcA).response.status = 403
       ∧ (handler.HandleExtension envA reqStale orcA).saved = none)) :=
  claim_C5_theorem envA reqStale orcA hostA rfl

/-- C4 (amended): the envelope POSTed to the registered backend for an
authorized extension request carries hostname = host.Name, ipv4_address =
host.IPv4Addr, ipv6_address = "" and last_boot = host.LastSessionCreation,
and its raw_query is always the empty string: the handler never populates
the RawQuery field, whatever the query string of the client request URL. -/
theorem claim_C4_theorem (env : handler.Env) (req : handler.Request)
    (orc : handler.Oracles) (host : storage.Host)
    (hload : orc.load = .ok host)
    (hip : handler.requestIsFromHost env req host = true)
    (hsid : req.sessionID = host.currentSessionIDs.extensionID)
    (hop : req.operation ≠ "")
    (hreg : (smapGet? orc.registry req.operation).isSome = true)
    (hurl : orc.extURLOk = true) :
    (handler.HandleExtension env req orc).sentEnvelope
      = some { hostname := host.name, iPv4Address := host.iPv4Addr,
               iPv6Address := "", lastBoot := host.lastSessionCreation,
               rawQuery := "" } := by
  rcases Option.isSome_iff_exists.mp hreg with ⟨u, hu⟩
  simp [handler.HandleExtension, hload, hip, hsid, hop, hu, hurl]

/-- C4 witness: a concrete authorized extension request. -/
theorem claim_C4_witness :
    (handler.HandleExtension envA reqExtQ orcA).sentEnvelope
      = some { hostname := hostA.name, iPv4Address := hostA.iPv4Addr,
               iPv6Address := "", lastBoot := hostA.lastSessionCreation,
               rawQuery := "" } :=
  claim_C4_theorem envA reqExtQ orcA hostA rfl (by decide) rfl (by decide)
    (by decide) rfl

/-- C4 counterexample: an authorized extension request with the nonempty
query string p=somevalue still produces an envelope whose raw_query is the
empty string, not the percent-encoded query the claim requires. -/
theorem claim_C4_counterexample :
    reqExtQ.rawQuery = "p=somevalue"
    ∧ (handler.HandleExtension envA reqExtQ orcA).sentEnvelope
        = some { hostname := "mlab1.example.org", iPv4Address := "10.0.0.2",
                 iPv6Address := "", lastBoot := 100, rawQuery := "" }
    ∧ ("" : String) ≠ "p=somevalue" := by
  refine ⟨rfl, rfl, by decide⟩

/-- C6: a stage2 or stage3 request that passes the load and source-IP
checks is answered 200 with the minimal action document whose only content
is v1.chain, taken at the stage name (the last segment of the URL path)
from the update sequence when update_enabled is set and from the boot
sequence otherwise; no save is issued, and the response is identical for
every value of the sessionID path variable, which is never read. -/
theorem claim_C6_theorem (ep : handler.Endpoint) (env : handler.Env)
    (req : handler.Request) (orc : handler.Oracles) (host : storage.Host)
    (hep : ep = handler.Endpoint.stage2 ∨ ep = handler.Endpoint.stage3)
    (hload : orc.load = .ok host)
    (hip : handler.requestIsFromHost env req host = true) :
    (handler.handleEndpoint ep env req orc).response.status = 200
    ∧ (handler.handleEndpoint ep env req orc).response.body
        = .config (chainOnlyConfig (smapGet
            (if host.updateEnabled then host.update else host.boot)
            (handler.pathBase req.urlPath)))
    ∧ (handler.handleEndpoint ep env req orc).saved = none
    ∧ (∀ sid, handler.handleEndpoint ep env { req with sessionID := sid } orc
          = handler.handleEndpoint ep env req orc) := by
  have hip2 : ∀ sid,
      handler.requestIsFromHost env { req with sessionID := sid } host
        = handler.requestIsFromHost env req host := by
    intro sid
    rfl
  rcases hep with h | h <;> subst h <;>
    refine ⟨?_, ?_, ?_, fun sid => ?_⟩ <;>
      simp [handler.handleEndpoint, handler.GenerateJSONConfig, hload, hip, hip2,
        template.FormatJSONConfig, storage.Host.currentSequence, handler.respond,
        chainOnlyConfig]

/-- C6 witness: a concrete stage2 request. -/
theorem claim_C6_witness :
    (handler.handleEndpoint .stage2 envA reqReport orcA).response.status = 200
    ∧ (handler.handleEndpoint .stage2 envA reqReport orcA).response.body
        = .config (chainOnlyConfig (smapGet
            (if hostA.updateEnabled then hostA.update else hostA.boot)
            (handler.pathBase reqReport.urlPath)))
    ∧ (handler.handleEndpoint .stage2 envA reqReport orcA).saved = none
    ∧ (∀ sid, handler.handleEndpoint .stage2 envA { reqReport with sessionID := sid } orcA
          = handler.handleEndpoint .stage2 envA reqReport orcA) :=
  claim_C6_theorem .stage2 envA reqReport orcA hostA (Or.inl rfl) rfl (by decide)

/-- C7 (the staged code evaluated at the failing input): for the concrete
host hostA, whose images_version is the nonempty "v1.2.3", the stage1 iPXE
script produced by the staged FormatStage1IPXEScript contains no
"set images_version v1.2.3" line (indeed no set directive at all for the
variable images_version), and the stage1 action produced by the staged
CreateStage1Action carries no epoxy.images_version kernel arg. The claim,
spec section 4.C and the repository's own staged tests for these two
functions (which expect the line "set images_version latest" in the script
and an "epoxy.images_version" karg in the action) all require both to be
present when images_version is nonempty. -/
theorem claim_C7_eval :
    hostA.imagesVersion = "v1.2.3"
    ∧ ("set images_version " ++ hostA.imagesVersion)
        ∉ template.stage1ScriptLines hostA "epoxy.example.net"
    ∧ smapGet? (template.stage1ScriptVars hostA "epoxy.example.net")
        "images_version" = none
    ∧ smapGet? (template.CreateStage1Action hostA "epoxy.example.net").kargs
        "epoxy.images_version" = none := by
  exact ⟨rfl, by decide, by decide, by decide⟩

/-- One chain-load step leaves kargs unchanged. -/
theorem loadAction_kargs (c : nextboot.Config) (fetched : Except String nextboot.Config)
    (r : nextboot.Config) (h : nextboot.loadAction c fetched = .ok r) :
    r.kargs = c.kargs := by
  cases fetched with
  | error e => simp [nextboot.loadAction] at h
  | ok n =>
    simp only [nextboot.loadAction, Except.ok.injEq] at h
    rw [← h]

/-- C8: every chain-load step replaces only the v1 portion of the in-memory
config with the fetched document's v1, and leaves the kargs mapping
entirely unchanged: no key is added, removed or overwritten from the remote
document, so in particular a key that already exists locally is never
replaced; the whole chain loop therefore preserves kargs. -/
theorem claim_C8_theorem :
    (∀ (c : nextboot.Config) (fetched : Except String nextboot.Config)
        (r : nextboot.Config),
       nextboot.loadAction c fetched = .ok r →
       r.kargs = c.kargs ∧ ∃ n, fetched = .ok n ∧ r.v1 = n.v1)
    ∧ ∀ (fetch : String → Except String nextboot.Config) (fuel : Nat)
        (c r : nextboot.Config),
       nextboot.maybeLoadChain fetch fuel c = .ok r → r.kargs = c.kargs := by
  constructor
  · intro c fetched r h
    cases fetched with
    | error e => simp [nextboot.loadAction] at h
    | ok n =>
      simp only [nextboot.loadAction, Except.ok.injEq] at h
      subst h
      exact ⟨rfl, n, rfl, rfl⟩
  · intro fetch fuel
    induction fuel with
    | zero =>
      intro c r h
      simp [nextboot.maybeLoadChain] at h
    | succ k ih =>
      intro c r h
      unfold nextboot.maybeLoadChain at h
      split at h
      · simp at h
      · split at h
        · simp only [Except.ok.injEq] at h
          rw [← h]
        · split at h
          · simp at h
          · rename_i c2 heq
            rw [ih c2 r h, loadAction_kargs _ _ _ heq]

/-- cleanupFiles does not change the allocation log. -/
theorem cleanupFiles_allocated (files : List (String × nextboot.FileSpec)) :
    ∀ s : nextboot.FS, (nextboot.cleanupFiles files s).allocated = s.allocated := by
  induction files with
  | nil => intro _; rfl
  | cons p rest ih =>
    obtain ⟨nm, spec⟩ := p
    intro s
    cases hn : spec.name with
    | none => simp [nextboot.cleanupFiles, hn, ih]
    | some f => simp [nextboot.cleanupFiles, hn, ih, nextboot.osRemove]

/-- cleanupFiles only adds to the deletion log. -/
theorem cleanupFiles_deleted_mono (files : List (String × nextboot.FileSpec)) :
    ∀ (s : nextboot.FS) (x : Nat), x ∈ s.deleted →
      x ∈ (nextboot.cleanupFiles files s).deleted := by
  induction files with
  | nil => intro _ _ hx; exact hx
  | cons p rest ih =>
    obtain ⟨nm, spec⟩ := p
    intro s x hx
    cases hn : spec.name with
    | none =>
      simp only [nextboot.cleanupFiles, hn]
      exact ih s x hx
    | some f =>
      simp only [nextboot.cleanupFiles, hn]
      exact ih _ x (List.mem_cons_of_mem _ hx)

/-- cleanupFiles deletes every file recorded under a name key. -/
theorem cleanupFiles_recorded (files : List (String × nextboot.FileSpec)) :
    ∀ (s : nextboot.FS) (nm : String) (spec : nextboot.FileSpec) (f : Nat),
      (nm, spec) ∈ files → spec.name = some f →
      f ∈ (nextboot.cleanupFiles files s).deleted := by
  induction files with
  | nil => intro _ _ _ _ hmem _; cases hmem
  | cons p rest ih =>
    obtain ⟨pn, pspec⟩ := p
    intro s nm spec f hmem hname
    rcases List.mem_cons.mp hmem with heq | hmem2
    · obtain ⟨rfl, rfl⟩ := Prod.mk.injEq .. ▸ And.intro (congrArg Prod.fst heq) (congrArg Prod.snd heq)
      simp only [nextboot.cleanupFiles, hname]
      exact cleanupFiles_deleted_mono rest _ f (List.mem_cons_self _ _)
    · cases hn : pspec.name with
      | none =>
        simp only [nextboot.cleanupFiles, hn]
        exact ih s nm spec f hmem2 hname
      | some g =>
        simp only [nextboot.cleanupFiles, hn]
        exact ih _ nm spec f hmem2 hname

/-- Where every file identifier alive in the allocation log after the files
pass comes from: it was allocated before the pass, or it is already in the
deletion log, or it is recorded under the name key of one of the updated
file specs the pass returns. -/
theorem evalFiles_allocated_spec (evalT : String → Except String String)
    (download : String → nextboot.FileSpec → Except String Unit) (dryrun : Bool) :
    ∀ (files : List (String × nextboot.FileSpec)) (s : nextboot.FS) (f : Nat),
      f ∈ (nextboot.evaluateAndDownloadFiles evalT download dryrun files s).2.1.allocated →
      f ∈ s.allocated
      ∨ f ∈ (nextboot.evaluateAndDownloadFiles evalT download dryrun files s).2.1.deleted
      ∨ ∃ nm spec,
          (nm, spec) ∈ (nextboot.evaluateAndDownloadFiles evalT download dryrun files s).1
          ∧ spec.name = some f := by
  intro files
  induction files with
  | nil =>
    intro s f hf
    exact Or.inl hf
  | cons entry rest ih =>
    obtain ⟨nm, spec⟩ := entry
    intro s f hf
    cases hu : spec.url with
    | none =>
      simp only [nextboot.evaluateAndDownloadFiles, hu] at hf
      exact Or.inl hf
    | some u =>
      cases hev : evalT u with
      | error e =>
        simp only [nextboot.evaluateAndDownloadFiles, hu, hev] at hf
        exact Or.inl hf
      | ok u2 =>
        cases dryrun with
        | true =>
          simp only [nextboot.evaluateAndDownloadFiles, hu, hev, if_true] at hf ⊢
          rcases ih _ f hf with h1 | h2 | ⟨n2, s2, hm, hn⟩
          · simp only [nextboot.tempFile] at h1
            rcases List.mem_cons.mp h1 with rfl | h1b
            · exact Or.inr (Or.inr ⟨nm, _, List.mem_cons_self _ _, rfl⟩)
            · exact Or.inl h1b
          · exact Or.inr (Or.inl h2)
          · exact Or.inr (Or.inr ⟨n2, s2, List.mem_cons_of_mem _ hm, hn⟩)
        | false =>
          cases hdl : download u2 { spec with url := some u2 } with
          | error e =>
            simp only [nextboot.evaluateAndDownloadFiles, hu, hev, if_false,
              Bool.false_eq_true, nextboot.osRemove, nextboot.tempFile, hdl] at hf ⊢
            rcases List.mem_cons.mp hf with rfl | h1b
            · exact Or.inr (Or.inl (List.mem_cons_self _ _))
            · exact Or.inl h1b
          | ok u3 =>
            simp only [nextboot.evaluateAndDownloadFiles, hu, hev, if_false,
              Bool.false_eq_true, hdl] at hf ⊢
            rcases ih _ f hf with h1 | h2 | ⟨n2, s2, hm, hn⟩
            · simp only [nextboot.tempFile] at h1
              rcases List.mem_cons.mp h1 with rfl | h1b
              · exact Or.inr (Or.inr ⟨nm, _, List.mem_cons_self _ _, rfl⟩)
              · exact Or.inl h1b
            · exact Or.inr (Or.inl h2)
            · exact Or.inr (Or.inr ⟨n2, s2, List.mem_cons_of_mem _ hm, hn⟩)

/-- C9: whatever the outcome of the files pass and of the command run that
follows it (success, a missing url key, a template error, or a download or
checksum failure part-way through), every temporary file the files pass
allocated is in the deletion log by the time the command run returns. Files
already allocated before the run are exempted. -/
theorem claim_C9_theorem (evalT : String → Except String String)
    (download : String → nextboot.FileSpec → Except String Unit) (dryrun : Bool)
    (files : List (String × nextboot.FileSpec)) (s : nextboot.FS) :
    ∀ f ∈ (nextboot.runCommandsFiles evalT download dryrun files s).allocated,
      f ∈ (nextboot.runCommandsFiles evalT download dryrun files s).deleted
      ∨ f ∈ s.allocated := by
  intro f hf
  unfold nextboot.runCommandsFiles at hf ⊢
  rw [cleanupFiles_allocated] at hf
  rcases evalFiles_allocated_spec evalT download dryrun files s f hf with h1 | h2 | ⟨nm, spec, hm, hn⟩
  · exact Or.inr h1
  · exact Or.inl (cleanupFiles_deleted_mono _ _ f h2)
  · exact Or.inl (cleanupFiles_recorded _ _ nm spec f hm hn)

/-- A concrete file list with one entry, for the C9 witness. -/
def filesW : List (String × nextboot.FileSpec) :=
  [("initram", { url := some "https://f/initram", sha256 := some "ab12", name := none })]

/-- C9 witness: a concrete run downloading one file; the allocated
temporary file 0 is in the deletion log on return. -/
theorem claim_C9_witness :
    0 ∈ (nextboot.runCommandsFiles (fun u => .ok u) (fun _ _ => .ok ()) false filesW
          { cnt := 0, allocated := [], deleted := [] }).deleted
    ∨ 0 ∈ ({ cnt := 0, allocated := [], deleted := [] } : nextboot.FS).allocated :=
  claim_C9_theorem (fun u => .ok u) (fun _ _ => .ok ()) false filesW
    { cnt := 0, allocated := [], deleted := [] } 0 (by decide)

/-- A run result where every action run fails, for the C3 evaluation. -/
def alwaysFails : Nat → Option String := fun _ => some "error: commands failed"

/-- C3 (the code evaluated at the failing input): a boot client run in
which the action run fails and the retry loop ends (here: the -no-retry
flag set; the deadline case behaves the same) terminates with the final run
failed and rebooted = false: reboot() is never invoked, because the check
after the loop reads the function-level runErr, which is always nil since
each loop iteration declares its own shadowing runErr with :=. The claim,
the spec, and the comment in the source above the check ("If the run step
failed, reboot the machine") all say a hard sysrq reboot must happen
here. -/
theorem claim_C3_eval :
    epoxy_client.mainRun alwaysFails (fun _ => true) true 1
      = some { finalRunErr := some "error: commands failed",
               outerRunErr := none, rebooted := false } := by
  decide

/-- C1 witness: the amended statement at a concrete stage2 request whose
origin IP does not match. -/
theorem claim_C1_witness :
    (handler.requestIsFromHost envA reqBad hostA = false →
       (handler.handleEndpoint .stage2 envA reqBad orcA).response
         = handler.httpError "Caller cannot access host" 403)
    ∧ ((handler.handleEndpoint .stage2 envA reqBad orcA).response.status < 500 →
       (handler.handleEndpoint .stage2 envA reqBad orcA).response.status ≠ 403 →
       handler.requestIsFromHost envA reqBad hostA = true) :=
  claim_C1_theorem .stage2 envA reqBad orcA hostA (by decide) rfl
